import Mathlib

/-!
# Yima client: request construction, token lifecycle and response decoding

A shallow embedding of `yima.go`.  Go strings are modelled as sequences of
code units (`List Char`); the functions of the Go standard library that the
source calls (`strings.Index`, `strings.Contains`, `strings.Split`,
`strconv.Itoa`, the integer-to-string conversion) are modelled from their
documented behaviour.  The network and the JSON decoders are parameters.
-/

namespace YimaClient

/-- A Go string, as its sequence of code units; the literals of the source are
    ASCII, one code unit per character. -/
abbrev Str := List Char

/-! ## Standard library functions used by the source -/

/-- Scan of `strings.Index`: the offset of the first position at or after `i`
    (counting from the start of the original string) where `sub` starts,
    `-1` when there is none. -/
def indexAux (sub : Str) : Str → Nat → Int
  | [], i => if sub = [] then (i : Int) else -1
  | c :: cs, i => if sub.isPrefixOf (c :: cs) then (i : Int) else indexAux sub cs (i + 1)

/-- Model of `strings.Index(s, substr)`. -/
def Index (s substr : Str) : Int := indexAux substr s 0

/-- Model of `strings.Contains(s, substr)`, which is `Index(s, substr) >= 0`. -/
def Contains (s substr : Str) : Bool := decide (Index s substr ≥ 0)

/-- Worker of `strings.Split` for a non-empty separator: `skip` counts the
    code units of a separator occurrence that are still to be dropped. -/
def splitAux (sep : Str) : Str → Nat → List Str
  | [], _ => [[]]
  | _ :: cs, skip + 1 => splitAux sep cs skip
  | c :: cs, 0 =>
    if sep.isPrefixOf (c :: cs) then [] :: splitAux sep cs (sep.length - 1)
    else
      match splitAux sep cs 0 with
      | [] => [[c]]
      | f :: fs => (c :: f) :: fs

/-- Model of `strings.Split(s, sep)`: the pieces of `s` between the
    non-overlapping occurrences of `sep`, found left to right; an empty
    separator explodes `s` into its code units. -/
def Split (s sep : Str) : List Str :=
  if sep = [] then s.map (fun c => [c]) else splitAux sep s 0

/-- Model of `strconv.Itoa`: the base-10 rendering of an integer. -/
def Itoa (n : Int) : Str :=
  if n < 0 then '-' :: (Nat.repr n.natAbs).toList else (Nat.repr n.natAbs).toList

/-- Model of the Go conversion `string(i)` of an integer: the string holding
    the code point `i`, or U+FFFD when `i` is not a valid code point. -/
def stringOfInt (i : Int) : Str :=
  if 0 ≤ i ∧ i.toNat.isValidChar then [Char.ofNat i.toNat] else [Char.ofNat 0xFFFD]

/-! ## `Between` -/

/-- The function `Between` of the source. -/
def Between (str starting ending : Str) : Str :=
  let s := Index str starting
  if s < 0 then []
  else
    let s := s + starting.length
    let e := Index (str.drop s.toNat) ending
    if e < 0 then []
    else (str.take (s + e).toNat).drop s.toNat

/-! ## Data model -/

/-- A Go `error` value, identified by its text. -/
structure GoError where
  text : Str
  deriving DecidableEq, Repr

/-- A `map[string]string`, as an association list with distinct keys. -/
abbrev Params := List (Str × Str)

/-- The assignment `m[k] = v`. -/
def Params.set (m : Params) (k v : Str) : Params :=
  if m.any (fun e => e.1 == k) then m.map (fun e => if e.1 == k then (k, v) else e)
  else m ++ [(k, v)]

/-- The type `Operator` of the source, an `int`. -/
abbrev Operator := Int

def ChinaMobile : Operator := 1
def ChinaTelecom : Operator := 2
def ChinaUnicom : Operator := 3

/-- The struct `Yima`. -/
structure Yima where
  Token : Str
  deriving DecidableEq, Repr

/-- The struct `AccountDetail`; `F` stands for the type `float32`. -/
structure AccountDetail (F : Type) where
  Name : Str
  Level : Int
  Balance : F
  Frozen : F
  Discount : F
  MaxHold : Int
  Status : Int

/-- The struct `TemplateCandidate`; a finite `float64` is the rational it denotes. -/
structure TemplateCandidate where
  ID : Int
  ItemName : Str
  Price : ℚ
  Regex : Str
  deriving DecidableEq

/-- The struct `MobileOption`. -/
structure MobileOption where
  ISP : Operator
  Province : Str
  City : Str
  Mobile : Str
  ExcludeNo : Str
  deriving DecidableEq

/-- A value of type `interface{}` as JSON decoding produces it. -/
inductive Json where
  | null
  | bool (b : Bool)
  | num (f : ℚ)
  | str (s : Str)
  | arr (l : List Json)
  | obj (kv : List (Str × Json))

/-- A dynamically typed struct field value, as `structs.Map` hands it to the
    type switch of `GetNumber`. -/
inductive FieldValue where
  | str (s : Str)
  | int (n : Int)
  | op (o : Operator)
  | other (typeName : Str)

/-- Model of `structs.Map` (github.com/fatih/structs) at `MobileOption`: one
    entry per exported field, keyed by the field name (the struct carries no
    `structs` tags, so no field is renamed or omitted when empty). -/
def structsMap (o : MobileOption) : List (Str × FieldValue) :=
  [("ISP".toList, .op o.ISP), ("Province".toList, .str o.Province),
   ("City".toList, .str o.City), ("Mobile".toList, .str o.Mobile),
   ("ExcludeNo".toList, .str o.ExcludeNo)]

/-! ## Transport -/

def YimaHost : Str := "api.fxhyd.cn".toList
def YimaScheme : Str := "http".toList
def YimaPath : Str := "UserInterface.aspx".toList
def YimaCandidateHost : Str := "api.fxhyd.cn".toList
def YimaCandidateScheme : Str := "http".toList
def YimaCandidatePath : Str := "appapi.aspx".toList

/-- An outbound GET: the URL parts and the query parameters. -/
structure Request where
  host : Str
  scheme : Str
  path : Str
  query : List (Str × Str)
  deriving DecidableEq

/-- The network: `http.Get` followed by `ioutil.ReadAll`, giving the response
    body or the error of either step. -/
abbrev Net := Request → Except GoError Str

/-- How a call ends: it returns a value, or the goroutine panics. -/
inductive Outcome (α : Type) where
  | ret (a : α)
  | panic (msg : Str)
  deriving DecidableEq

/-- The effect of one operation: the session afterwards, the requests sent
    to the network in order, and how the call ended. -/
structure Step (α : Type) where
  ym : Yima
  calls : List Request
  out : Outcome α
  deriving DecidableEq

/-- The request that `get` builds. -/
def getRequest (action : Str) (params : Params) : Request :=
  { host := YimaHost, scheme := YimaScheme, path := YimaPath,
    query := params ++ [("action".toList, action)] }

/-- The method `get`: the request sent and the returned `(string, error)`. -/
def Yima.get (net : Net) (_ym : Yima) (action : Str) (params : Params) :
    Request × Str × Option GoError :=
  let req := getRequest action params
  match net req with
  | .ok body => (req, body, none)
  | .error e => (req, [], some e)

/-! ## Session and protocol -/

/-- The method `Login`. -/
def Yima.Login (net : Net) (ym : Yima) (username password : Str) : Step (Option GoError) :=
  match ym.get net "login".toList
      [("username".toList, username), ("password".toList, password)] with
  | (req, _, some e) =>
    ⟨ym, [req], .panic ("network error when login: ".toList ++ e.text)⟩
  | (req, b, none) =>
    if Contains b "success".toList then
      match (Split b "|".toList)[1]? with
      | some t => ⟨{ ym with Token := t }, [req], .ret none⟩
      | none => ⟨ym, [req], .panic "index out of range [1]".toList⟩
    else
      ⟨ym, [req], .ret (some ⟨"error when login, error code: ".toList ++ b⟩)⟩

/-- The method `authGET`.  It is unexported and every caller passes a freshly
    built (non-nil) map. -/
def Yima.authGET (net : Net) (ym : Yima) (action : Str) (params : Params) :
    Step (Str × Option GoError) :=
  if ym.Token = [] then ⟨ym, [], .ret ([], some ⟨"not login".toList⟩)⟩
  else
    let params := params.set "token".toList ym.Token
    match ym.get net action params with
    | (req, s, err) =>
      if Contains s "success".toList then
        match (Split s "|".toList)[1]? with
        | some p => ⟨ym, [req], .ret (p, none)⟩
        | none => ⟨ym, [req], .panic "index out of range [1]".toList⟩
      else ⟨ym, [req], .ret (s, err)⟩

/-- The tail shared by the callers of `authGET` that return `(string, error)`:
    `if err != nil { return "", err }; return b, nil`. -/
def passString (r : Step (Str × Option GoError)) : Step (Str × Option GoError) :=
  match r.out with
  | .ret (_, some e) => { r with out := .ret ([], some e) }
  | .ret (b, none) => { r with out := .ret (b, none) }
  | .panic m => { r with out := .panic m }

/-- The tail shared by the callers of `authGET` that return only an `error`:
    `if err != nil { return err }; return nil`. -/
def passError (r : Step (Str × Option GoError)) : Step (Option GoError) :=
  match r.out with
  | .ret (_, some e) => ⟨r.ym, r.calls, .ret (some e)⟩
  | .ret (_, none) => ⟨r.ym, r.calls, .ret none⟩
  | .panic m => ⟨r.ym, r.calls, .panic m⟩

/-- The method `GetAccountDetail`; `unmarshal` is `json.Unmarshal` into an
    `AccountDetail`, `zero` is `AccountDetail{}`. -/
def Yima.GetAccountDetail {F : Type} (unmarshal : Str → Except GoError (AccountDetail F))
    (zero : AccountDetail F) (net : Net) (ym : Yima) :
    Step (AccountDetail F × Option GoError) :=
  let r := ym.authGET net "getaccountinfo".toList [("format".toList, "1".toList)]
  match r.out with
  | .panic m => ⟨r.ym, r.calls, .panic m⟩
  | .ret (_, some e) => ⟨r.ym, r.calls, .ret (zero, some e)⟩
  | .ret (b, none) =>
    match unmarshal b with
    | .error e => ⟨r.ym, r.calls, .ret (zero, some e)⟩
    | .ok ad => ⟨r.ym, r.calls, .ret (ad, none)⟩

/-- The conversion `int(f)` of a `float64` to the 64-bit `int`: truncation
    toward zero when the truncated value fits in 64 bits; when it does not, the
    Go specification leaves the result to the implementation, and the value
    taken here is the one of amd64, the least `int`. -/
def intOfFloat (f : ℚ) : Int :=
  let t := f.num.tdiv f.den
  if -(2 : Int) ^ 63 ≤ t ∧ t < (2 : Int) ^ 63 then t else -(2 : Int) ^ 63

/-- One iteration of the loop of `SearchTemplate`: the four unchecked type
    assertions on the entries of the map `i`; `none` is the run-time panic of a
    failed assertion. -/
def candidateOf (i : List (Str × Json)) : Option TemplateCandidate :=
  match i.lookup "ID".toList, i.lookup "ItemName".toList,
      i.lookup "Price".toList, i.lookup "Regex".toList with
  | some (.num id), some (.str name), some (.num price), some (.str regex) =>
    some { ID := intOfFloat id, ItemName := name, Price := price, Regex := regex }
  | _, _, _, _ => none

/-- The loop of `SearchTemplate` over the decoded list `c`, appending to `r`. -/
def candidatesLoop : List (List (Str × Json)) → List TemplateCandidate →
    Option (List TemplateCandidate)
  | [], r => some r
  | i :: c, r =>
    match candidateOf i with
    | some n => candidatesLoop c (r ++ [n])
    | none => none

/-- The request that `SearchTemplate` builds. -/
def searchRequest (token keyword : Str) : Request :=
  { host := YimaCandidateHost, scheme := YimaScheme, path := YimaCandidatePath,
    query := ((Params.set [] "actionid".toList "itemseach".toList).set
      "token".toList token).set "itemname".toList keyword }

/-- The method `SearchTemplate`; `dataList` is
    `jsoniter.Get(body, "data", "list").ToVal(&c)`: the value it leaves in `c`,
    or `none` when the call panics, as it does (`not implemented`) on a body
    that has no `data.list`. -/
def Yima.SearchTemplate (dataList : Str → Option (List (List (Str × Json)))) (net : Net)
    (ym : Yima)
    (keyword : Str) : Step (List TemplateCandidate × Option GoError) :=
  if ym.Token = [] then ⟨ym, [], .ret ([], some ⟨"not login".toList⟩)⟩
  else
    let req := searchRequest ym.Token keyword
    match net req with
    | .error e => ⟨ym, [req], .ret ([], some e)⟩
    | .ok body =>
      match dataList body with
      | none => ⟨ym, [req], .panic "not implemented".toList⟩
      | some c =>
        match candidatesLoop c [] with
        | some r => ⟨ym, [req], .ret (r, none)⟩
        | none => ⟨ym, [req], .panic "interface conversion".toList⟩

/-- The type switch of `GetNumber` over the entries of `structs.Map`. -/
def optionParams : List (Str × FieldValue) → Params → Except GoError Params
  | [], params => .ok params
  | (k, .str v) :: s, params => optionParams s (params.set k v)
  | (k, .int v) :: s, params => optionParams s (params.set k (Itoa v))
  | (k, .op v) :: s, params => optionParams s (params.set k (stringOfInt v))
  | (_, .other t) :: _, _ => .error ⟨"options type error: ".toList ++ t⟩

/-- The method `GetNumber`; `option` is a pointer, `none` being `nil`. -/
def Yima.GetNumber (net : Net) (ym : Yima) (itemID : Int) (option : Option MobileOption) :
    Step (Str × Option GoError) :=
  let params := Params.set [] "itemid".toList (Itoa itemID)
  match option with
  | none => ⟨ym, [], .panic "invalid memory address or nil pointer dereference".toList⟩
  | some o =>
    match optionParams (structsMap o) params with
    | .error e => ⟨ym, [], .ret ([], some e)⟩
    | .ok params => passString (ym.authGET net "getmobile".toList params)

/-- The method `GetSMSMessage`. -/
def Yima.GetSMSMessage (net : Net) (ym : Yima) (phoneNo : Str) (itemID : Int)
    (addignore : Bool) : Step (Str × Option GoError) :=
  let params : Params := [("itemid".toList, Itoa itemID), ("mobile".toList, phoneNo)]
  let params := if addignore then params.set "release".toList "1".toList else params
  passString (ym.authGET net "getsms".toList params)

/-- The method `SendSMSCode`. -/
def Yima.SendSMSCode (net : Net) (ym : Yima) (phoneNo : Str) (itemID : Int) (text : Str) :
    Step (Option GoError) :=
  passError (ym.authGET net "sendsms".toList
    [("itemid".toList, Itoa itemID), ("mobile".toList, phoneNo), ("sms".toList, text)])

/-- The method `GetSentSMSStatus`. -/
def Yima.GetSentSMSStatus (net : Net) (ym : Yima) (phoneNo : Str) (itemID : Int) :
    Step (Option GoError) :=
  passError (ym.authGET net "getsendsmsstate".toList
    [("itemid".toList, Itoa itemID), ("mobile".toList, phoneNo)])

/-- The method `ReleaseNumber`. -/
def Yima.ReleaseNumber (net : Net) (ym : Yima) (phoneNo : Str) (itemID : Int) :
    Step (Option GoError) :=
  passError (ym.authGET net "release".toList
    [("itemid".toList, Itoa itemID), ("mobile".toList, phoneNo)])

/-- The method `BlockNumber`. -/
def Yima.BlockNumber (net : Net) (ym : Yima) (phoneNo : Str) (itemID : Int) :
    Step (Option GoError) :=
  passError (ym.authGET net "addignore".toList
    [("itemid".toList, Itoa itemID), ("mobile".toList, phoneNo)])

/-! ## Specification vocabulary for substring search -/

/-- The string `sub` occurs somewhere in `s`. -/
def Occurs (sub s : Str) : Prop := ∃ pre post, s = pre ++ sub ++ post

/-- The first occurrence of `sub` in `s` is at offset `n`. -/
def FirstAt (sub s : Str) (n : Nat) : Prop :=
  n ≤ s.length ∧ sub <+: s.drop n ∧ ∀ m, m < n → ¬ sub <+: s.drop m

/-- In `str`, `starting` occurs and `ending` occurs in what follows the first
    occurrence of `starting`. -/
def OccursAfterFirst (str starting ending : Str) : Prop :=
  ∃ pre rest, str = pre ++ starting ++ rest ∧ FirstAt starting str pre.length ∧
    Occurs ending rest

/-! ## Specification vocabulary for the requests and the decoded templates -/

/-- The request that `Login` sends. -/
def loginRequest (username password : Str) : Request :=
  getRequest "login".toList [("username".toList, username), ("password".toList, password)]

/-- The object `i` supplies a numeric `ID`, a string `ItemName`, a numeric
    `Price` and a string `Regex`. -/
def WellShaped (i : List (Str × Json)) : Prop :=
  ∃ id name price regex, i.lookup "ID".toList = some (.num id) ∧
    i.lookup "ItemName".toList = some (.str name) ∧
    i.lookup "Price".toList = some (.num price) ∧
    i.lookup "Regex".toList = some (.str regex)

/-- The candidate `t` carries the fields of the object `i`. -/
def Carries (i : List (Str × Json)) (t : TemplateCandidate) : Prop :=
  ∃ id, i.lookup "ID".toList = some (.num id) ∧ t.ID = intOfFloat id ∧
    i.lookup "ItemName".toList = some (.str t.ItemName) ∧
    i.lookup "Price".toList = some (.num t.Price) ∧
    i.lookup "Regex".toList = some (.str t.Regex)

/-! ## Substring search -/

theorem indexAux_cases (sub : Str) (s : Str) (i : Nat) :
    (indexAux sub s i = -1 ∧ ∀ m, m ≤ s.length → ¬ sub <+: s.drop m) ∨
    ∃ n : Nat, indexAux sub s i = ((i + n : Nat) : Int) ∧ FirstAt sub s n := by
  induction s generalizing i with
  | nil =>
    by_cases h : sub = []
    · right
      refine ⟨0, by simp [indexAux, h], by simp, by simp [h], by simp⟩
    · left
      refine ⟨by simp [indexAux, h], ?_⟩
      intro m _ hp
      simp at hp
      exact h hp
  | cons c cs ih =>
    by_cases h : sub.isPrefixOf (c :: cs) = true
    · right
      refine ⟨0, by simp [indexAux, h], by simp, ?_, by simp⟩
      simpa using List.isPrefixOf_iff_prefix.mp h
    · have hnp : ¬ sub <+: c :: cs := fun hp => h (List.isPrefixOf_iff_prefix.mpr hp)
      rcases ih (i + 1) with ⟨h1, h2⟩ | ⟨n, h1, h2, h3, h4⟩
      · left
        refine ⟨by simp [indexAux, h, h1], ?_⟩
        intro m hm
        cases m with
        | zero => simpa using hnp
        | succ m => simpa using h2 m (by simpa using hm)
      · right
        refine ⟨n + 1, ?_, by simpa using h2, by simpa using h3, ?_⟩
        · simp only [indexAux, h, h1]
          simp
          omega
        · intro m hm
          cases m with
          | zero => simpa using hnp
          | succ m => simpa using h4 m (by omega)

theorem occurs_iff_drop (sub s : Str) :
    Occurs sub s ↔ ∃ m, m ≤ s.length ∧ sub <+: s.drop m := by
  constructor
  · rintro ⟨pre, post, rfl⟩
    refine ⟨pre.length, by simp, ?_⟩
    simp [List.append_assoc]
  · rintro ⟨m, _, post, hpost⟩
    refine ⟨s.take m, post, ?_⟩
    rw [List.append_assoc, hpost, List.take_append_drop]

theorem Index_cases (s sub : Str) :
    (Index s sub = -1 ∧ ¬ Occurs sub s) ∨ ∃ n : Nat, Index s sub = (n : Int) ∧ FirstAt sub s n := by
  rcases indexAux_cases sub s 0 with ⟨h1, h2⟩ | ⟨n, h1, h2⟩
  · left
    refine ⟨h1, ?_⟩
    rw [occurs_iff_drop]
    rintro ⟨m, hm, hp⟩
    exact h2 m hm hp
  · right
    exact ⟨n, by simpa [Index] using h1, h2⟩

theorem FirstAt_unique {sub s : Str} {n k : Nat} (hn : FirstAt sub s n) (hk : FirstAt sub s k) :
    n = k := by
  rcases Nat.lt_trichotomy n k with h | h | h
  · exact absurd hn.2.1 (hk.2.2 n h)
  · exact h
  · exact absurd hk.2.1 (hn.2.2 k h)

theorem FirstAt_occurs {sub s : Str} {n : Nat} (h : FirstAt sub s n) : Occurs sub s :=
  (occurs_iff_drop sub s).mpr ⟨n, h.1, h.2.1⟩

theorem Index_of_FirstAt {sub s : Str} {n : Nat} (h : FirstAt sub s n) : Index s sub = (n : Int) := by
  rcases Index_cases s sub with ⟨_, h2⟩ | ⟨k, h1, h2⟩
  · exact absurd (FirstAt_occurs h) h2
  · rw [h1, FirstAt_unique h h2]

theorem Index_of_not_occurs {sub s : Str} (h : ¬ Occurs sub s) : Index s sub = -1 := by
  rcases Index_cases s sub with ⟨h1, _⟩ | ⟨k, _, h2⟩
  · exact h1
  · exact absurd (FirstAt_occurs h2) h

theorem Contains_iff (s sub : Str) : Contains s sub = true ↔ Occurs sub s := by
  unfold Contains
  rcases Index_cases s sub with ⟨h1, h2⟩ | ⟨k, h1, h2⟩
  · simp [h1, h2]
  · simp [h1, FirstAt_occurs h2]

/-! ## `Between` -/

theorem Between_of_decomposition (str starting ending pre r post : Str)
    (hstr : str = pre ++ starting ++ r ++ ending ++ post)
    (h1 : FirstAt starting str pre.length)
    (h2 : FirstAt ending (r ++ ending ++ post) r.length) :
    Between str starting ending = r := by
  have hdrop : str.drop (pre.length + starting.length) = r ++ ending ++ post := by
    rw [hstr]
    have : pre ++ starting ++ r ++ ending ++ post = (pre ++ starting) ++ (r ++ ending ++ post) := by
      simp [List.append_assoc]
    rw [this, ← List.length_append, List.drop_left]
  have hi1 := Index_of_FirstAt h1
  have hi2 := Index_of_FirstAt h2
  unfold Between
  simp only [hi1]
  have e1 : ((pre.length : Int) + (starting.length : Int)).toNat = pre.length + starting.length := by
    omega
  rw [e1, hdrop, hi2]
  have e2 : ((pre.length : Int) + (starting.length : Int) + (r.length : Int)).toNat
      = pre.length + starting.length + r.length := by omega
  rw [e2]
  have hneg1 : ¬ ((pre.length : Int) < 0) := by omega
  have hneg2 : ¬ ((r.length : Int) < 0) := by omega
  simp only [hneg1, hneg2, if_false]
  rw [List.drop_take, hdrop]
  simp [List.append_assoc]

theorem Between_of_not (str starting ending : Str)
    (h : ¬ OccursAfterFirst str starting ending) : Between str starting ending = [] := by
  unfold Between
  rcases Index_cases str starting with ⟨h1, _⟩ | ⟨n, h1, h2⟩
  · simp [h1]
  · obtain ⟨post, hpost⟩ := h2.2.1
    have hstr : str = str.take n ++ starting ++ post := by
      rw [List.append_assoc, hpost, List.take_append_drop]
    have hlen : (str.take n).length = n := by simp [h2.1]
    have hno : ¬ Occurs ending post := fun ho =>
      h ⟨str.take n, post, hstr, by rw [hlen]; exact h2, ho⟩
    have hdrop : str.drop (n + starting.length) = post := by
      rw [← List.drop_drop, ← hpost]
      simp
    have e1 : ((n : Int) + (starting.length : Int)).toNat = n + starting.length := by omega
    simp only [h1, e1]
    rw [hdrop, Index_of_not_occurs hno]
    simp

theorem decomposition_of_occurs (str starting ending : Str)
    (h : OccursAfterFirst str starting ending) :
    ∃ pre r post, str = pre ++ starting ++ r ++ ending ++ post ∧
      FirstAt starting str pre.length ∧ FirstAt ending (r ++ ending ++ post) r.length := by
  obtain ⟨pre, rest, hstr, h1, ho⟩ := h
  rcases Index_cases rest ending with ⟨_, hn⟩ | ⟨e, _, h2⟩
  · exact absurd ho hn
  · obtain ⟨post, hpost⟩ := h2.2.1
    have hrest : rest = rest.take e ++ ending ++ post := by
      rw [List.append_assoc, hpost, List.take_append_drop]
    have hlen : (rest.take e).length = e := by simp [h2.1]
    refine ⟨pre, rest.take e, post, ?_, h1, ?_⟩
    · rw [hstr]
      conv_lhs => rw [hrest]
      simp [List.append_assoc]
    · rw [← hrest, hlen]
      exact h2

/-! ## `Split` on a one-character separator -/

theorem splitAux_single_cons (c d : Char) (cs : Str) :
    splitAux [c] (d :: cs) 0 =
      if c = d then [] :: splitAux [c] cs 0
      else match splitAux [c] cs 0 with
        | [] => [[d]]
        | f :: fs => (d :: f) :: fs := by
  by_cases h : c = d
  · subst h
    simp [splitAux, List.isPrefixOf]
  · simp [splitAux, List.isPrefixOf, h]

theorem splitAux_single_length (c : Char) (s : Str) :
    (splitAux [c] s 0).length = 1 + s.count c := by
  induction s with
  | nil => simp [splitAux]
  | cons d cs ih =>
    rw [splitAux_single_cons]
    by_cases h : c = d
    · subst h
      simp [ih]
      omega
    · have hd : (d == c) = false := by simpa using fun e => h e.symm
      simp only [h, if_false, List.count_cons, hd]
      revert ih
      cases hs : splitAux [c] cs 0 with
      | nil => intro ih; simp at ih; omega
      | cons f fs =>
        intro ih
        simpa using ih

theorem splitAux_single_head (c : Char) (s : Str) :
    (splitAux [c] s 0).head? = some (s.takeWhile (fun x => x != c)) := by
  induction s with
  | nil => simp [splitAux]
  | cons d cs ih =>
    rw [splitAux_single_cons]
    by_cases h : c = d
    · subst h
      simp
    · have hd : (d != c) = true := by simpa using fun e => h e.symm
      simp only [h, if_false, List.takeWhile_cons, hd, if_true]
      revert ih
      cases hs : splitAux [c] cs 0 with
      | nil => intro ih; simp at ih
      | cons f fs =>
        intro ih
        simpa using ih

theorem splitAux_single_append (c : Char) (p X : Str) (h : c ∉ p) :
    splitAux [c] (p ++ c :: X) 0 = p :: splitAux [c] X 0 := by
  induction p with
  | nil => simp [splitAux_single_cons]
  | cons d ds ih =>
    have hcd : c ≠ d := fun e => h (by simp [e])
    have hds : c ∉ ds := fun e => h (by simp [e])
    rw [List.cons_append, splitAux_single_cons, ih hds]
    simp [hcd]

/-- Element 1 of `strings.Split(s, "|")` exists exactly when `s` holds a `|`. -/
theorem Split_pipe_second_none (s : Str) :
    (Split s "|".toList)[1]? = none ↔ '|' ∉ s := by
  have hl := splitAux_single_length '|' s
  have hsplit : Split s "|".toList = splitAux ['|'] s 0 := by simp [Split]
  rw [hsplit, List.getElem?_eq_none_iff, hl, ← List.count_eq_zero]
  omega

/-- Element 1 of `strings.Split(p ++ "|" ++ X, "|")`, for `p` free of `|`, is
    `X` up to its first `|`. -/
theorem Split_pipe_second (p X : Str) (h : '|' ∉ p) :
    (Split (p ++ '|' :: X) "|".toList)[1]? = some (X.takeWhile (fun x => x != '|')) := by
  have hsplit : Split (p ++ '|' :: X) "|".toList = splitAux ['|'] (p ++ '|' :: X) 0 := by
    simp [Split]
  rw [hsplit, splitAux_single_append _ _ _ h]
  have hh := splitAux_single_head '|' X
  revert hh
  cases hs : splitAux ['|'] X 0 with
  | nil => intro hh; simp at hh
  | cons f fs =>
    intro hh
    simpa using hh

theorem takeWhile_of_not_mem (c : Char) (X : Str) (h : c ∉ X) :
    X.takeWhile (fun x => x != c) = X := by
  rw [List.takeWhile_eq_self_iff]
  intro x hx
  simpa using fun e : x = c => h (e ▸ hx)

/-! ## `authGET` -/

theorem authGET_unauthenticated (net : Net) (ym : Yima) (action : Str) (params : Params)
    (h : ym.Token = []) :
    ym.authGET net action params = ⟨ym, [], .ret ([], some ⟨"not login".toList⟩)⟩ := by
  simp [Yima.authGET, h]

theorem authGET_failure_body (net : Net) (ym : Yima) (action : Str) (params : Params)
    (body : Str) (hTok : ym.Token ≠ [])
    (hnet : net (getRequest action (params.set "token".toList ym.Token)) = .ok body)
    (hbody : Contains body "success".toList = false) :
    ym.authGET net action params =
      ⟨ym, [getRequest action (params.set "token".toList ym.Token)], .ret (body, none)⟩ := by
  simp only [Yima.authGET, hTok, Yima.get, hnet, hbody, if_false, if_true, Bool.false_eq_true]

theorem authGET_success_body (net : Net) (ym : Yima) (action : Str) (params : Params)
    (body : Str) (hTok : ym.Token ≠ [])
    (hnet : net (getRequest action (params.set "token".toList ym.Token)) = .ok body)
    (hbody : Contains body "success".toList = true) :
    ym.authGET net action params =
      match (Split body "|".toList)[1]? with
      | some p => ⟨ym, [getRequest action (params.set "token".toList ym.Token)], .ret (p, none)⟩
      | none => ⟨ym, [getRequest action (params.set "token".toList ym.Token)],
          .panic "index out of range [1]".toList⟩ := by
  simp only [Yima.authGET, hTok, Yima.get, hnet, hbody, if_false, if_true, Bool.false_eq_true]

theorem Contains_success_head (X : Str) :
    Contains ("success|".toList ++ X) "success".toList = true := by
  rw [Contains_iff]
  exact ⟨[], '|' :: X, by simp⟩

theorem passError_ret (ym : Yima) (calls : List Request) (b : Str) :
    (passError ⟨ym, calls, .ret (b, none)⟩) = ⟨ym, calls, .ret none⟩ := rfl

theorem passString_ret (ym : Yima) (calls : List Request) (b : Str) :
    (passString ⟨ym, calls, .ret (b, none)⟩) = ⟨ym, calls, .ret (b, none)⟩ := rfl

theorem optionParams_structsMap (o : MobileOption) (params : Params) :
    optionParams (structsMap o) params =
      .ok (((((params.set "ISP".toList (stringOfInt o.ISP)).set "Province".toList o.Province).set
        "City".toList o.City).set "Mobile".toList o.Mobile).set "ExcludeNo".toList o.ExcludeNo) := rfl

/-- C1 (defect of the code): on a session with a non-empty token, when the
    transport succeeds with a body that lacks `success`, `authGET` returns that
    body as its result together with a nil error, and so `GetNumber` and
    `GetSMSMessage` return the body with a nil error and `SendSMSCode`,
    `GetSentSMSStatus`, `ReleaseNumber` and `BlockNumber` return a nil error:
    no operation reports the vendor failure as an error. -/
theorem authGET_failure_body_nil_error (net : Net) (ym : Yima) (action : Str) (params : Params)
    (phoneNo text : Str) (itemID : Int) (addignore : Bool) (o : MobileOption) (body : Str)
    (hTok : ym.Token ≠ []) (hnet : ∀ req, net req = .ok body)
    (hbody : Contains body "success".toList = false) :
    (ym.authGET net action params).out = .ret (body, none) ∧
    (ym.GetNumber net itemID (some o)).out = .ret (body, none) ∧
    (ym.GetSMSMessage net phoneNo itemID addignore).out = .ret (body, none) ∧
    (ym.SendSMSCode net phoneNo itemID text).out = .ret none ∧
    (ym.GetSentSMSStatus net phoneNo itemID).out = .ret none ∧
    (ym.ReleaseNumber net phoneNo itemID).out = .ret none ∧
    (ym.BlockNumber net phoneNo itemID).out = .ret none := by
  have key : ∀ a q, ym.authGET net a q =
      ⟨ym, [getRequest a (q.set "token".toList ym.Token)], .ret (body, none)⟩ :=
    fun a q => authGET_failure_body net ym a q body hTok (hnet _) hbody
  refine ⟨by rw [key], ?_, ?_, ?_, ?_, ?_, ?_⟩
  · simp only [Yima.GetNumber, optionParams_structsMap, key, passString_ret]
  · simp only [Yima.GetSMSMessage, key, passString_ret]
  · simp only [Yima.SendSMSCode, key, passError_ret]
  · simp only [Yima.GetSentSMSStatus, key, passError_ret]
  · simp only [Yima.ReleaseNumber, key, passError_ret]
  · simp only [Yima.BlockNumber, key, passError_ret]

/-- The failing input of C1: the token is `t`, the vendor answers `2007`. -/
theorem authGET_failure_body_nil_error_witness :
    (Yima.mk "t".toList).Token ≠ [] ∧ Contains "2007".toList "success".toList = false ∧
    ((Yima.mk "t".toList).authGET (fun _ => .ok "2007".toList) "release".toList []).out
      = .ret ("2007".toList, none) ∧
    ((Yima.mk "t".toList).ReleaseNumber (fun _ => .ok "2007".toList) "138".toList 1).out
      = .ret none :=
  have h := authGET_failure_body_nil_error (fun _ => .ok "2007".toList) (Yima.mk "t".toList)
    "release".toList [] "138".toList [] 1 false ⟨2, [], [], [], []⟩ "2007".toList
    (by decide) (fun _ => rfl) (by decide)
  ⟨by decide, by decide, h.1, h.2.2.2.2.2.1⟩

/-- C2, as the code has it: on a session with a non-empty token, when the
    transport returns `success|X`, `authGET` returns with no error the second
    field of the body split on `|`, which is `X` up to its first `|`; it is all
    of `X` when `X` holds no `|`. -/
theorem authGET_success_payload (net : Net) (ym : Yima) (action : Str) (params : Params)
    (X : Str) (hTok : ym.Token ≠ [])
    (hnet : net (getRequest action (params.set "token".toList ym.Token)) =
      .ok ("success|".toList ++ X)) :
    (ym.authGET net action params).out = .ret (X.takeWhile (fun x => x != '|'), none) ∧
    ('|' ∉ X → (ym.authGET net action params).out = .ret (X, none)) := by
  have hsplit : (Split ("success|".toList ++ X) "|".toList)[1]? =
      some (X.takeWhile (fun x => x != '|')) :=
    Split_pipe_second "success".toList X (by decide)
  have hout : (ym.authGET net action params).out = .ret (X.takeWhile (fun x => x != '|'), none) := by
    rw [authGET_success_body net ym action params _ hTok hnet (Contains_success_head X), hsplit]
  refine ⟨hout, fun h => ?_⟩
  rw [hout, takeWhile_of_not_mem '|' X h]

theorem authGET_success_payload_witness :
    (Yima.mk "t".toList).Token ≠ [] ∧
    ((Yima.mk "t".toList).authGET (fun _ => .ok ("success|".toList ++ "13800138000".toList))
      "getmobile".toList []).out = .ret ("13800138000".toList, none) :=
  ⟨by decide,
   (authGET_success_payload (fun _ => .ok ("success|".toList ++ "13800138000".toList))
      (Yima.mk "t".toList) "getmobile".toList [] "13800138000".toList (by decide) rfl).2
      (by decide)⟩

/-- C2 fails as stated: for `X = a|b` the body is `success|a|b` and `authGET`
    returns `a`, not `a|b`. -/
theorem authGET_payload_cut_at_second_pipe :
    (Yima.mk "t".toList).Token ≠ [] ∧
    ((Yima.mk "t".toList).authGET (fun _ => .ok ("success|".toList ++ "a|b".toList))
      "getsms".toList []).out = .ret ("a".toList, none) ∧
    ¬ ((Yima.mk "t".toList).authGET (fun _ => .ok ("success|".toList ++ "a|b".toList))
      "getsms".toList []).out = .ret ("a|b".toList, none) := by
  decide

theorem passError_notLogin (ym : Yima) :
    passError ⟨ym, [], .ret ([], some ⟨"not login".toList⟩)⟩ =
      ⟨ym, [], .ret (some ⟨"not login".toList⟩)⟩ := rfl

theorem passString_notLogin (ym : Yima) :
    passString ⟨ym, [], .ret ([], some ⟨"not login".toList⟩)⟩ =
      ⟨ym, [], .ret ([], some ⟨"not login".toList⟩)⟩ := rfl

/-- C3, as the code has it: on a session whose token is empty, `authGET` and
    every public operation other than `Login`, for all arguments with a non-nil
    option pointer for `GetNumber`, return the error `not login`, send nothing
    to the transport and leave the session as it was. -/
theorem unauthenticated_not_login {F : Type} (unmarshal : Str → Except GoError (AccountDetail F))
    (zero : AccountDetail F) (dataList : Str → Option (List (List (Str × Json))))
    (net : Net) (ym : Yima) (action : Str) (params : Params)
    (keyword phoneNo text : Str) (itemID : Int) (addignore : Bool) (o : MobileOption)
    (hTok : ym.Token = []) :
    ym.authGET net action params = ⟨ym, [], .ret ([], some ⟨"not login".toList⟩)⟩ ∧
    ym.GetAccountDetail unmarshal zero net = ⟨ym, [], .ret (zero, some ⟨"not login".toList⟩)⟩ ∧
    ym.SearchTemplate dataList net keyword = ⟨ym, [], .ret ([], some ⟨"not login".toList⟩)⟩ ∧
    ym.GetNumber net itemID (some o) = ⟨ym, [], .ret ([], some ⟨"not login".toList⟩)⟩ ∧
    ym.GetSMSMessage net phoneNo itemID addignore =
      ⟨ym, [], .ret ([], some ⟨"not login".toList⟩)⟩ ∧
    ym.SendSMSCode net phoneNo itemID text = ⟨ym, [], .ret (some ⟨"not login".toList⟩)⟩ ∧
    ym.GetSentSMSStatus net phoneNo itemID = ⟨ym, [], .ret (some ⟨"not login".toList⟩)⟩ ∧
    ym.ReleaseNumber net phoneNo itemID = ⟨ym, [], .ret (some ⟨"not login".toList⟩)⟩ ∧
    ym.BlockNumber net phoneNo itemID = ⟨ym, [], .ret (some ⟨"not login".toList⟩)⟩ := by
  have key : ∀ a q, ym.authGET net a q = ⟨ym, [], .ret ([], some ⟨"not login".toList⟩)⟩ :=
    fun a q => authGET_unauthenticated net ym a q hTok
  refine ⟨key _ _, ?_, ?_, ?_, ?_, ?_, ?_, ?_, ?_⟩
  · simp only [Yima.GetAccountDetail, key]
  · simp only [Yima.SearchTemplate, hTok, if_true]
  · simp only [Yima.GetNumber, optionParams_structsMap, key, passString_notLogin]
  · simp only [Yima.GetSMSMessage, key, passString_notLogin]
  · simp only [Yima.SendSMSCode, key, passError_notLogin]
  · simp only [Yima.GetSentSMSStatus, key, passError_notLogin]
  · simp only [Yima.ReleaseNumber, key, passError_notLogin]
  · simp only [Yima.BlockNumber, key, passError_notLogin]

theorem unauthenticated_not_login_witness :
    (Yima.mk []).Token = [] ∧
    (Yima.mk []).GetNumber (fun _ => .ok "success|1".toList) 7 (some ⟨2, [], [], [], []⟩)
      = ⟨Yima.mk [], [], .ret ([], some ⟨"not login".toList⟩)⟩ :=
  ⟨rfl, (unauthenticated_not_login (fun _ => Except.error (GoError.mk [])) (AccountDetail.mk [] 0 0 0 0 0 0 : AccountDetail Nat)
    (fun _ => none) (fun _ => .ok "success|1".toList) (Yima.mk []) [] [] [] [] [] 7 false
    ⟨2, [], [], [], []⟩ rfl).2.2.2.1⟩

/-- C3 fails as stated: with an empty token and a nil option pointer,
    `GetNumber` panics on the dereference instead of returning `not login`. -/
theorem GetNumber_nil_option_panics :
    (Yima.mk []).Token = [] ∧
    ((Yima.mk []).GetNumber (fun _ => .ok "success|1".toList) 7 none).out =
      .panic "invalid memory address or nil pointer dereference".toList ∧
    ¬ ((Yima.mk []).GetNumber (fun _ => .ok "success|1".toList) 7 none).out =
      .ret ([], some ⟨"not login".toList⟩) := by
  decide

/-! ## `Login` -/

theorem Login_net_error (net : Net) (ym : Yima) (username password : Str) (e : GoError)
    (hnet : net (loginRequest username password) = .error e) :
    ym.Login net username password =
      ⟨ym, [loginRequest username password],
        .panic ("network error when login: ".toList ++ e.text)⟩ := by
  unfold loginRequest at hnet
  simp only [Yima.Login, Yima.get, hnet, loginRequest]

theorem Login_failure_body (net : Net) (ym : Yima) (username password body : Str)
    (hnet : net (loginRequest username password) = .ok body)
    (hbody : Contains body "success".toList = false) :
    ym.Login net username password =
      ⟨ym, [loginRequest username password],
        .ret (some ⟨"error when login, error code: ".toList ++ body⟩)⟩ := by
  unfold loginRequest at hnet
  simp only [Yima.Login, Yima.get, hnet, hbody, loginRequest, if_false, Bool.false_eq_true]

theorem Login_success_body (net : Net) (ym : Yima) (username password body : Str)
    (hnet : net (loginRequest username password) = .ok body)
    (hbody : Contains body "success".toList = true) :
    ym.Login net username password =
      match (Split body "|".toList)[1]? with
      | some t => ⟨{ ym with Token := t }, [loginRequest username password], .ret none⟩
      | none => ⟨ym, [loginRequest username password], .panic "index out of range [1]".toList⟩ := by
  unfold loginRequest at hnet
  simp only [Yima.Login, Yima.get, hnet, hbody, loginRequest, if_true]

/-- C4 (defect of the code): when the response body of `Login` contains
    `success`, the call returns no error and sets the token to the second field
    of the body split on `|` only if the body holds a `|`; on a body without
    `|` the access to element 1 of the split is out of range and `Login`
    panics, the token left as it was. -/
theorem Login_success_needs_pipe (net : Net) (ym : Yima) (username password body : Str)
    (hnet : net (loginRequest username password) = .ok body)
    (hbody : Contains body "success".toList = true) :
    ('|' ∈ body → ∃ t, (Split body "|".toList)[1]? = some t ∧
      ym.Login net username password =
        ⟨{ ym with Token := t }, [loginRequest username password], .ret none⟩) ∧
    ('|' ∉ body → ym.Login net username password =
      ⟨ym, [loginRequest username password], .panic "index out of range [1]".toList⟩) := by
  rw [Login_success_body net ym username password body hnet hbody]
  constructor
  · intro h
    cases hs : (Split body "|".toList)[1]? with
    | none => exact absurd h ((Split_pipe_second_none body).mp hs)
    | some t => exact ⟨t, rfl, rfl⟩
  · intro h
    rw [(Split_pipe_second_none body).mpr h]

/-- The failing input of C4: the vendor answers `success` with no `|`. -/
theorem Login_success_needs_pipe_witness :
    Contains "success".toList "success".toList = true ∧
    (Yima.mk []).Login (fun _ => .ok "success".toList) "u".toList "p".toList =
      ⟨Yima.mk [], [loginRequest "u".toList "p".toList],
        .panic "index out of range [1]".toList⟩ :=
  ⟨by decide,
   (Login_success_needs_pipe (fun _ => .ok "success".toList) (Yima.mk []) "u".toList "p".toList
      "success".toList rfl (by decide)).2 (by decide)⟩

/-- C10 (defect of the code): the pipe-delimited decoding does index out of
    range.  For every response body that contains `success`, `Login`, and
    `authGET` on a session with a non-empty token, return normally exactly when
    the body holds a `|`; on a body without `|` both abort on the access to
    element 1 of the body split on `|`. -/
theorem split_index_out_of_range (net : Net) (ym : Yima) (action : Str) (params : Params)
    (username password body : Str) (hnet : ∀ req, net req = .ok body)
    (hbody : Contains body "success".toList = true) (hTok : ym.Token ≠ []) :
    ('|' ∉ body →
      (ym.Login net username password).out = .panic "index out of range [1]".toList ∧
      (ym.authGET net action params).out = .panic "index out of range [1]".toList) ∧
    ('|' ∈ body → ∃ t, (Split body "|".toList)[1]? = some t ∧
      (ym.Login net username password).out = .ret none ∧
      (ym.authGET net action params).out = .ret (t, none)) := by
  rw [Login_success_body net ym username password body (hnet _) hbody,
    authGET_success_body net ym action params body hTok (hnet _) hbody]
  constructor
  · intro h
    rw [(Split_pipe_second_none body).mpr h]
    exact ⟨rfl, rfl⟩
  · intro h
    cases hs : (Split body "|".toList)[1]? with
    | none => exact absurd h ((Split_pipe_second_none body).mp hs)
    | some t => exact ⟨t, rfl, rfl, rfl⟩

/-- The failing input of C10: the vendor answers `success` with no `|`. -/
theorem split_index_out_of_range_witness :
    Contains "success".toList "success".toList = true ∧
    Split "success".toList "|".toList = ["success".toList] ∧
    ((Yima.mk "t".toList).Login (fun _ => .ok "success".toList) "u".toList "p".toList).out =
      .panic "index out of range [1]".toList ∧
    ((Yima.mk "t".toList).authGET (fun _ => .ok "success".toList) "getsms".toList []).out =
      .panic "index out of range [1]".toList :=
  ⟨by decide, by decide,
   (split_index_out_of_range (fun _ => .ok "success".toList) (Yima.mk "t".toList)
      "getsms".toList [] "u".toList "p".toList "success".toList (fun _ => rfl) (by decide)
      (by decide)).1 (by decide)⟩

/-! ## The token -/

theorem authGET_ym (net : Net) (ym : Yima) (action : Str) (params : Params) :
    (ym.authGET net action params).ym = ym := by
  unfold Yima.authGET
  split
  · rfl
  · dsimp only
    split
    · split <;> rfl
    · rfl

theorem passString_ym (r : Step (Str × Option GoError)) : (passString r).ym = r.ym := by
  unfold passString
  split <;> rfl

theorem passError_ym (r : Step (Str × Option GoError)) : (passError r).ym = r.ym := by
  unfold passError
  split <;> rfl

theorem GetAccountDetail_ym {F : Type} (unmarshal : Str → Except GoError (AccountDetail F))
    (zero : AccountDetail F) (net : Net) (ym : Yima) :
    (ym.GetAccountDetail unmarshal zero net).ym = ym := by
  unfold Yima.GetAccountDetail
  dsimp only
  split
  · exact authGET_ym ..
  · exact authGET_ym ..
  · split <;> exact authGET_ym ..

theorem SearchTemplate_ym (dataList : Str → Option (List (List (Str × Json)))) (net : Net)
    (ym : Yima) (keyword : Str) : (ym.SearchTemplate dataList net keyword).ym = ym := by
  unfold Yima.SearchTemplate
  split
  · rfl
  · dsimp only
    split
    · rfl
    · split
      · rfl
      · split <;> rfl

theorem GetNumber_ym (net : Net) (ym : Yima) (itemID : Int) (option : Option MobileOption) :
    (ym.GetNumber net itemID option).ym = ym := by
  cases option with
  | none => rfl
  | some o =>
    simp only [Yima.GetNumber, optionParams_structsMap, passString_ym, authGET_ym]

theorem Login_ym_of_not_success (net : Net) (ym : Yima) (username password : Str)
    (h : (ym.Login net username password).out ≠ .ret none) :
    (ym.Login net username password).ym = ym := by
  revert h
  cases hnet : net (loginRequest username password) with
  | error e =>
    rw [Login_net_error net ym username password e hnet]
    intro _
    rfl
  | ok body =>
    cases hbody : Contains body "success".toList with
    | false =>
      rw [Login_failure_body net ym username password body hnet hbody]
      intro _
      rfl
    | true =>
      rw [Login_success_body net ym username password body hnet hbody]
      cases (Split body "|".toList)[1]? with
      | none => intro _; rfl
      | some t => intro h; exact absurd rfl h

theorem Login_token_of_success (net : Net) (ym : Yima) (username password : Str)
    (h : (ym.Login net username password).out = .ret none) :
    ∃ body, net (loginRequest username password) = .ok body ∧
      Contains body "success".toList = true ∧
      (Split body "|".toList)[1]? = some (ym.Login net username password).ym.Token := by
  revert h
  cases hnet : net (loginRequest username password) with
  | error e =>
    rw [Login_net_error net ym username password e hnet]
    intro h
    cases h
  | ok body =>
    cases hbody : Contains body "success".toList with
    | false =>
      rw [Login_failure_body net ym username password body hnet hbody]
      intro h
      cases h
    | true =>
      rw [Login_success_body net ym username password body hnet hbody]
      cases hs : (Split body "|".toList)[1]? with
      | none => intro h; cases h
      | some t => intro _; exact ⟨body, rfl, hbody, hs⟩

/-- C8: the token changes only on a successful `Login`.  For every session,
    every transport behaviour (any response or error) and all arguments, each
    public operation other than `Login` (and `authGET`) leaves the token equal
    to its value before the call, and every `Login` call that does not return
    a nil error, so every one that returns an error, leaves it unchanged too. -/
theorem token_changes_only_on_successful_Login {F : Type}
    (unmarshal : Str → Except GoError (AccountDetail F)) (zero : AccountDetail F)
    (dataList : Str → Option (List (List (Str × Json)))) (net : Net) (ym : Yima)
    (action : Str) (params : Params) (keyword phoneNo text username password : Str)
    (itemID : Int) (addignore : Bool) (option : Option MobileOption) :
    (ym.authGET net action params).ym.Token = ym.Token ∧
    (ym.GetAccountDetail unmarshal zero net).ym.Token = ym.Token ∧
    (ym.SearchTemplate dataList net keyword).ym.Token = ym.Token ∧
    (ym.GetNumber net itemID option).ym.Token = ym.Token ∧
    (ym.GetSMSMessage net phoneNo itemID addignore).ym.Token = ym.Token ∧
    (ym.SendSMSCode net phoneNo itemID text).ym.Token = ym.Token ∧
    (ym.GetSentSMSStatus net phoneNo itemID).ym.Token = ym.Token ∧
    (ym.ReleaseNumber net phoneNo itemID).ym.Token = ym.Token ∧
    (ym.BlockNumber net phoneNo itemID).ym.Token = ym.Token ∧
    ((ym.Login net username password).out ≠ .ret none →
      (ym.Login net username password).ym.Token = ym.Token) := by
  refine ⟨?_, ?_, ?_, ?_, ?_, ?_, ?_, ?_, ?_, ?_⟩
  · rw [authGET_ym]
  · rw [GetAccountDetail_ym]
  · rw [SearchTemplate_ym]
  · rw [GetNumber_ym]
  · rw [Yima.GetSMSMessage, passString_ym, authGET_ym]
  · rw [Yima.SendSMSCode, passError_ym, authGET_ym]
  · rw [Yima.GetSentSMSStatus, passError_ym, authGET_ym]
  · rw [Yima.ReleaseNumber, passError_ym, authGET_ym]
  · rw [Yima.BlockNumber, passError_ym, authGET_ym]
  · intro h
    rw [Login_ym_of_not_success net ym username password h]

/-- A `Login` that returns an error, and a `ReleaseNumber` on a vendor answer,
    both on the token `t`. -/
theorem token_changes_only_on_successful_Login_witness :
    ((Yima.mk "t".toList).Login (fun _ => .ok "3001".toList) "u".toList "p".toList).out ≠
      .ret none ∧
    ((Yima.mk "t".toList).Login (fun _ => .ok "3001".toList) "u".toList "p".toList).ym.Token =
      "t".toList :=
  ⟨by decide,
   (token_changes_only_on_successful_Login (fun _ => Except.error (GoError.mk []))
      (AccountDetail.mk [] 0 0 0 0 0 0 : AccountDetail Nat) (fun _ => none)
      (fun _ => .ok "3001".toList) (Yima.mk "t".toList) [] [] [] [] [] "u".toList "p".toList
      1 false none).2.2.2.2.2.2.2.2.2 (by decide)⟩

/-- C9, as the code has it: on a session whose token is non-empty, every
    public operation other than `Login` (and `authGET`), and every `Login` that
    does not return a nil error, leaves the token non-empty; a `Login` that
    returns a nil error got a body containing `success` and leaves as token the
    second field of that body split on `|`, whatever it is, so the session is
    authenticated afterwards exactly when that field is non-empty. -/
theorem token_stays_set_except_Login {F : Type}
    (unmarshal : Str → Except GoError (AccountDetail F)) (zero : AccountDetail F)
    (dataList : Str → Option (List (List (Str × Json)))) (net : Net) (ym : Yima)
    (action : Str) (params : Params) (keyword phoneNo text username password : Str)
    (itemID : Int) (addignore : Bool) (option : Option MobileOption)
    (hTok : ym.Token ≠ []) :
    (ym.authGET net action params).ym.Token ≠ [] ∧
    (ym.GetAccountDetail unmarshal zero net).ym.Token ≠ [] ∧
    (ym.SearchTemplate dataList net keyword).ym.Token ≠ [] ∧
    (ym.GetNumber net itemID option).ym.Token ≠ [] ∧
    (ym.GetSMSMessage net phoneNo itemID addignore).ym.Token ≠ [] ∧
    (ym.SendSMSCode net phoneNo itemID text).ym.Token ≠ [] ∧
    (ym.GetSentSMSStatus net phoneNo itemID).ym.Token ≠ [] ∧
    (ym.ReleaseNumber net phoneNo itemID).ym.Token ≠ [] ∧
    (ym.BlockNumber net phoneNo itemID).ym.Token ≠ [] ∧
    ((ym.Login net username password).out ≠ .ret none →
      (ym.Login net username password).ym.Token ≠ []) ∧
    ((ym.Login net username password).out = .ret none →
      ∃ body, net (loginRequest username password) = .ok body ∧
        Contains body "success".toList = true ∧
        (Split body "|".toList)[1]? = some (ym.Login net username password).ym.Token) := by
  refine ⟨?_, ?_, ?_, ?_, ?_, ?_, ?_, ?_, ?_, ?_, ?_⟩
  · rwa [authGET_ym]
  · rwa [GetAccountDetail_ym]
  · rwa [SearchTemplate_ym]
  · rwa [GetNumber_ym]
  · rwa [Yima.GetSMSMessage, passString_ym, authGET_ym]
  · rwa [Yima.SendSMSCode, passError_ym, authGET_ym]
  · rwa [Yima.GetSentSMSStatus, passError_ym, authGET_ym]
  · rwa [Yima.ReleaseNumber, passError_ym, authGET_ym]
  · rwa [Yima.BlockNumber, passError_ym, authGET_ym]
  · intro h
    rwa [Login_ym_of_not_success net ym username password h]
  · exact Login_token_of_success net ym username password

theorem token_stays_set_except_Login_witness :
    (Yima.mk "t".toList).Token ≠ [] ∧
    ((Yima.mk "t".toList).BlockNumber (fun _ => .ok "success|ok".toList) "138".toList 1).ym.Token
      ≠ [] :=
  ⟨by decide,
   (token_stays_set_except_Login (fun _ => Except.error (GoError.mk []))
      (AccountDetail.mk [] 0 0 0 0 0 0 : AccountDetail Nat) (fun _ => none)
      (fun _ => .ok "success|ok".toList) (Yima.mk "t".toList) [] [] [] "138".toList [] [] []
      1 false none (by decide)).2.2.2.2.2.2.2.2.1⟩

/-- C9 fails as stated: on the token `t`, a `Login` answered `success|`
    returns no error and leaves the token empty. -/
theorem Login_can_empty_the_token :
    (Yima.mk "t".toList).Token ≠ [] ∧
    ((Yima.mk "t".toList).Login (fun _ => .ok "success|".toList) "u".toList "p".toList).out =
      .ret none ∧
    ((Yima.mk "t".toList).Login (fun _ => .ok "success|".toList) "u".toList "p".toList).ym.Token
      = [] := by
  decide

/-! ## `GetNumber` -/

theorem authGET_calls (net : Net) (ym : Yima) (action : Str) (params : Params)
    (hTok : ym.Token ≠ []) :
    (ym.authGET net action params).calls =
      [getRequest action (params.set "token".toList ym.Token)] := by
  simp only [Yima.authGET, hTok, Yima.get, if_false]
  split
  · split <;> split <;> rfl
  · split <;> rfl

theorem passString_calls (r : Step (Str × Option GoError)) : (passString r).calls = r.calls := by
  unfold passString
  split <;> rfl

/-- C6, as the code has it: on an authenticated session, for every itemID and
    every option record, `GetNumber` hands the transport exactly one request,
    to the primary endpoint, whose parameters are, in this order of keys,
    `itemid`, `ISP`, `Province`, `City`, `Mobile`, `ExcludeNo`, `token` and
    `action`: `itemid` holds the base-10 rendering of itemID, an operator entry
    is present under `ISP`, each of `Province`, `City`, `Mobile` and
    `ExcludeNo` holds the value of its field (the empty string when the field
    is unset), `token` holds the session token and `action` holds
    `getmobile`. -/
theorem GetNumber_query (net : Net) (ym : Yima) (itemID : Int) (o : MobileOption)
    (hTok : ym.Token ≠ []) :
    ∃ req, (ym.GetNumber net itemID (some o)).calls = [req] ∧
      req.host = YimaHost ∧ req.scheme = YimaScheme ∧ req.path = YimaPath ∧
      req.query.map Prod.fst = ["itemid".toList, "ISP".toList, "Province".toList,
        "City".toList, "Mobile".toList, "ExcludeNo".toList, "token".toList,
        "action".toList] ∧
      req.query.lookup "itemid".toList = some (Itoa itemID) ∧
      (req.query.lookup "ISP".toList).isSome = true ∧
      req.query.lookup "Province".toList = some o.Province ∧
      req.query.lookup "City".toList = some o.City ∧
      req.query.lookup "Mobile".toList = some o.Mobile ∧
      req.query.lookup "ExcludeNo".toList = some o.ExcludeNo ∧
      req.query.lookup "token".toList = some ym.Token ∧
      req.query.lookup "action".toList = some "getmobile".toList := by
  have hq : (ym.GetNumber net itemID (some o)).calls =
      [{ host := YimaHost, scheme := YimaScheme, path := YimaPath,
         query := [("itemid".toList, Itoa itemID), ("ISP".toList, stringOfInt o.ISP),
           ("Province".toList, o.Province), ("City".toList, o.City),
           ("Mobile".toList, o.Mobile), ("ExcludeNo".toList, o.ExcludeNo),
           ("token".toList, ym.Token), ("action".toList, "getmobile".toList)] }] := by
    simp only [Yima.GetNumber, optionParams_structsMap, passString_calls,
      authGET_calls net ym _ _ hTok]
    rfl
  exact ⟨_, hq, rfl, rfl, rfl, rfl, rfl, rfl, rfl, rfl, rfl, rfl, rfl, rfl⟩

/-- The example of C6: the option record with the Telecom operator and the
    province `Beijing`, itemID 7, on the token `t`. -/
theorem GetNumber_query_witness :
    (Yima.mk "t".toList).Token ≠ [] ∧
    ∃ req, ((Yima.mk "t".toList).GetNumber (fun _ => .ok "success|1".toList) 7
        (some ⟨ChinaTelecom, "Beijing".toList, [], [], []⟩)).calls = [req] ∧
      req.host = YimaHost ∧ req.scheme = YimaScheme ∧ req.path = YimaPath ∧
      req.query.map Prod.fst = ["itemid".toList, "ISP".toList, "Province".toList,
        "City".toList, "Mobile".toList, "ExcludeNo".toList, "token".toList,
        "action".toList] ∧
      req.query.lookup "itemid".toList = some (Itoa 7) ∧
      (req.query.lookup "ISP".toList).isSome = true ∧
      req.query.lookup "Province".toList = some "Beijing".toList ∧
      req.query.lookup "City".toList = some [] ∧
      req.query.lookup "Mobile".toList = some [] ∧
      req.query.lookup "ExcludeNo".toList = some [] ∧
      req.query.lookup "token".toList = some "t".toList ∧
      req.query.lookup "action".toList = some "getmobile".toList :=
  ⟨by decide,
   GetNumber_query (fun _ => .ok "success|1".toList) (Yima.mk "t".toList) 7
     ⟨ChinaTelecom, "Beijing".toList, [], [], []⟩ (by decide)⟩

/-- C6 fails as stated: for the option record with the Telecom operator and
    the province `Beijing`, the parameters handed to the transport do hold
    entries for the unset fields `City`, `Mobile` and `ExcludeNo` (with empty
    values), and the province is under the key `Province`, not `province`. -/
theorem GetNumber_unset_fields_present :
    (Yima.mk "t".toList).Token ≠ [] ∧
    ((Yima.mk "t".toList).GetNumber (fun _ => .ok "success|1".toList) 7
        (some ⟨ChinaTelecom, "Beijing".toList, [], [], []⟩)).calls.map
      (fun r => (r.query.lookup "City".toList, r.query.lookup "Mobile".toList,
        r.query.lookup "ExcludeNo".toList, r.query.lookup "province".toList,
        r.query.lookup "Province".toList)) =
      [(some [], some [], some [], none, some "Beijing".toList)] :=
  ⟨by decide, by rfl⟩

/-! ## `SearchTemplate` -/

/-- The conversion `int(f)` at values inside and outside the 64-bit range. -/
theorem intOfFloat_values :
    intOfFloat 1 = 1 ∧ intOfFloat (5 / 2) = 2 ∧ intOfFloat (-5 / 2) = -2 ∧
    intOfFloat 10000000000000000000 = -9223372036854775808 := by
  have h1 : (5 / 2 : ℚ).num = 5 := by norm_num
  have h2 : (5 / 2 : ℚ).den = 2 := by norm_num
  have h3 : (-5 / 2 : ℚ).num = -5 := by norm_num
  have h4 : (-5 / 2 : ℚ).den = 2 := by norm_num
  refine ⟨rfl, ?_, ?_, rfl⟩
  · simp only [intOfFloat, h1, h2]
    decide
  · simp only [intOfFloat, h3, h4]
    decide

theorem candidateOf_wellShaped (i : List (Str × Json)) (h : WellShaped i) :
    ∃ t, candidateOf i = some t ∧ Carries i t := by
  obtain ⟨id, name, price, regex, h1, h2, h3, h4⟩ := h
  refine ⟨⟨intOfFloat id, name, price, regex⟩, ?_, id, h1, rfl, h2, h3, h4⟩
  simp only [candidateOf, h1, h2, h3, h4]

theorem candidateOf_malformed (i : List (Str × Json)) (h : ¬ WellShaped i) :
    candidateOf i = none := by
  unfold candidateOf
  split
  · rename_i id name price regex h1 h2 h3 h4
    exact absurd ⟨id, name, price, regex, h1, h2, h3, h4⟩ h
  · rfl

theorem candidatesLoop_wellShaped (c : List (List (Str × Json))) (r : List TemplateCandidate)
    (h : ∀ i ∈ c, WellShaped i) :
    ∃ r2, candidatesLoop c r = some (r ++ r2) ∧ List.Forall₂ Carries c r2 := by
  induction c generalizing r with
  | nil => exact ⟨[], by simp [candidatesLoop], List.Forall₂.nil⟩
  | cons i c ih =>
    obtain ⟨t, ht, hc⟩ := candidateOf_wellShaped i (h i (by simp))
    obtain ⟨r2, hr2, hf⟩ := ih (r ++ [t]) (fun j hj => h j (by simp [hj]))
    refine ⟨t :: r2, ?_, List.Forall₂.cons hc hf⟩
    simp only [candidatesLoop, ht, hr2, List.append_assoc, List.singleton_append]

theorem candidatesLoop_malformed (c : List (List (Str × Json))) (r : List TemplateCandidate)
    (h : ∃ i ∈ c, ¬ WellShaped i) : candidatesLoop c r = none := by
  induction c generalizing r with
  | nil =>
    obtain ⟨j, hj, _⟩ := h
    cases hj
  | cons i c ih =>
    by_cases hi : WellShaped i
    · obtain ⟨t, ht, _⟩ := candidateOf_wellShaped i hi
      simp only [candidatesLoop, ht]
      apply ih
      obtain ⟨j, hj, hbad⟩ := h
      rcases List.mem_cons.mp hj with rfl | hj2
      · exact absurd hi hbad
      · exact ⟨j, hj2, hbad⟩
    · simp only [candidatesLoop, candidateOf_malformed i hi]

/-- The part of C7 that holds: on an authenticated session, when the decoded
    `data.list` is `c` and every element of `c` is well shaped,
    `SearchTemplate` returns no error and one candidate per element, in order,
    each carrying the fields of its element. -/
theorem SearchTemplate_wellShaped (dataList : Str → Option (List (List (Str × Json))))
    (net : Net) (ym : Yima) (keyword body : Str) (c : List (List (Str × Json)))
    (hTok : ym.Token ≠ []) (hnet : net (searchRequest ym.Token keyword) = .ok body)
    (hdec : dataList body = some c) (h : ∀ i ∈ c, WellShaped i) :
    ∃ r, (ym.SearchTemplate dataList net keyword).out = .ret (r, none) ∧
      r.length = c.length ∧ List.Forall₂ Carries c r := by
  obtain ⟨r, hr, hf⟩ := candidatesLoop_wellShaped c [] h
  refine ⟨r, ?_, hf.length_eq.symm, hf⟩
  simp only [Yima.SearchTemplate, hTok, if_false, hnet, hdec, hr, List.nil_append]

/-- On an authenticated session, a body on which the decoding call itself
    panics makes `SearchTemplate` panic. -/
theorem SearchTemplate_decode_panics (dataList : Str → Option (List (List (Str × Json))))
    (net : Net) (ym : Yima) (keyword body : Str) (hTok : ym.Token ≠ [])
    (hnet : net (searchRequest ym.Token keyword) = .ok body) (hdec : dataList body = none) :
    ym.SearchTemplate dataList net keyword =
      ⟨ym, [searchRequest ym.Token keyword], .panic "not implemented".toList⟩ := by
  simp only [Yima.SearchTemplate, hTok, if_false, hnet, hdec]

/-- C7 (defect of the code): on an authenticated session, when the decoded
    `data.list` is `c` and some element of `c` does not supply a numeric `ID`,
    a string `ItemName`, a numeric `Price` and a string `Regex`,
    `SearchTemplate` does not return a decode error: an unchecked type
    assertion fails and the call panics. -/
theorem SearchTemplate_malformed_element_panics
    (dataList : Str → Option (List (List (Str × Json)))) (net : Net) (ym : Yima)
    (keyword body : Str) (c : List (List (Str × Json))) (hTok : ym.Token ≠ [])
    (hnet : net (searchRequest ym.Token keyword) = .ok body)
    (hdec : dataList body = some c) (h : ∃ i ∈ c, ¬ WellShaped i) :
    ym.SearchTemplate dataList net keyword =
      ⟨ym, [searchRequest ym.Token keyword], .panic "interface conversion".toList⟩ := by
  simp only [Yima.SearchTemplate, hTok, if_false, hnet, hdec, candidatesLoop_malformed c [] h]

/-- The failing input of C7: the only element of `data.list` has the string
    `1` as its `ID`. -/
theorem SearchTemplate_malformed_element_panics_witness :
    (Yima.mk "t".toList).Token ≠ [] ∧
    ((Yima.mk "t".toList).SearchTemplate
      (fun _ => some [[("ID".toList, .str "1".toList), ("ItemName".toList, .str "t".toList),
        ("Price".toList, .num (5 / 2)), ("Regex".toList, .str "\\d\x7b6\x7d".toList)]])
      (fun _ => .ok []) "k".toList).out = .panic "interface conversion".toList :=
  ⟨by decide,
   congrArg Step.out (SearchTemplate_malformed_element_panics
     (fun _ => some [[("ID".toList, .str "1".toList), ("ItemName".toList, .str "t".toList),
        ("Price".toList, .num (5 / 2)), ("Regex".toList, .str "\\d\x7b6\x7d".toList)]])
     (fun _ => .ok []) (Yima.mk "t".toList) "k".toList [] _ (by decide) rfl rfl
     ⟨_, List.mem_singleton.mpr rfl, by
        rintro ⟨id, name, price, regex, h1, _⟩
        simp [List.lookup] at h1⟩)⟩

/-- The example of C7: a decoded `data.list` holding the one object with
    `ID` 1, `ItemName` `t`, `Price` 2.5 and `Regex` `\d{6}` gives exactly the
    one candidate with these fields. -/
theorem SearchTemplate_example (net : Net) (ym : Yima) (keyword body : Str)
    (dataList : Str → Option (List (List (Str × Json)))) (hTok : ym.Token ≠ [])
    (hnet : net (searchRequest ym.Token keyword) = .ok body)
    (hdec : dataList body = some [[("ID".toList, .num 1), ("ItemName".toList, .str "t".toList),
        ("Price".toList, .num (5 / 2)), ("Regex".toList, .str "\\d\x7b6\x7d".toList)]]) :
    (ym.SearchTemplate dataList net keyword).out =
      .ret ([⟨1, "t".toList, 5 / 2, "\\d\x7b6\x7d".toList⟩], none) := by
  simp only [Yima.SearchTemplate, hTok, if_false, hnet, hdec]
  rfl

/-! ## `Between` -/

/-- C5: for all strings, if `starting` occurs in `str` and `ending` occurs in
    what follows the first occurrence of `starting`, then `str` splits as
    `pre ++ starting ++ r ++ ending ++ post` with the first occurrence of
    `starting` in `str` at offset `|pre|` and the first occurrence of `ending`
    in `r ++ ending ++ post` at offset `|r|`, and `Between` returns `r` (for
    every such splitting); otherwise `Between` returns the empty string.  In
    particular `Between("a[x]b", "[", "]") = "x"` and
    `Between("abc", "[", "]") = ""`. -/
theorem Between_spec (str starting ending : Str) :
    (OccursAfterFirst str starting ending →
      ∃ pre r post, str = pre ++ starting ++ r ++ ending ++ post ∧
        FirstAt starting str pre.length ∧ FirstAt ending (r ++ ending ++ post) r.length ∧
        Between str starting ending = r) ∧
    (∀ pre r post, str = pre ++ starting ++ r ++ ending ++ post →
      FirstAt starting str pre.length → FirstAt ending (r ++ ending ++ post) r.length →
      Between str starting ending = r) ∧
    (¬ OccursAfterFirst str starting ending → Between str starting ending = []) ∧
    Between "a[x]b".toList "[".toList "]".toList = "x".toList ∧
    Between "abc".toList "[".toList "]".toList = [] := by
  refine ⟨fun h => ?_, fun pre r post hstr h1 h2 => ?_, fun h => ?_, by decide, by decide⟩
  · obtain ⟨pre, r, post, hstr, h1, h2⟩ := decomposition_of_occurs str starting ending h
    exact ⟨pre, r, post, hstr, h1, h2,
      Between_of_decomposition str starting ending pre r post hstr h1 h2⟩
  · exact Between_of_decomposition str starting ending pre r post hstr h1 h2
  · exact Between_of_not str starting ending h

/-- The first example of C5: in `a[x]b` both delimiters occur, and the text
    between them is `x`. -/
theorem Between_spec_witness :
    OccursAfterFirst "a[x]b".toList "[".toList "]".toList ∧
    ∃ pre r post, "a[x]b".toList = pre ++ "[".toList ++ r ++ "]".toList ++ post ∧
      FirstAt "[".toList "a[x]b".toList pre.length ∧
      FirstAt "]".toList (r ++ "]".toList ++ post) r.length ∧
      Between "a[x]b".toList "[".toList "]".toList = r :=
  have h : OccursAfterFirst "a[x]b".toList "[".toList "]".toList :=
    ⟨"a".toList, "x]b".toList, by decide, by unfold FirstAt; decide,
      "x".toList, "b".toList, by decide⟩
  ⟨h, (Between_spec "a[x]b".toList "[".toList "]".toList).1 h⟩

end YimaClient
